import Mathlib

/-!
Verification of the behavior-routing core of `serverless-offline-edge-lambda`
(`src/behavior-router.ts`), a local simulator of CloudFront edge-lambda
request routing. The repository ships only the router source; the
collaborators it imports (`FunctionSet`, `CloudFrontLifecycle`,
`CacheService`, the HTTP error classes and header helper) are modelled from
the system specification where a claim needs them, and each such definition
says so in its doc comment.

Shallow embedding conventions:
* The JS `Map<string, FunctionSet>` of behaviors is an insertion-ordered
  association list `List (String × FunctionSet)`; `Map.set` on an existing
  key updates it in place (keeping its position), otherwise appends.
* JS truthiness of an optional string (`undefined`/`''` are falsy) is the
  predicate `strTruthy`.
* Side effects of one request (purging the cache, running the lifecycle,
  writing status/headers/body) are recorded in an explicit result record.
-/

namespace EdgeLambda

/-! ## JS primitives -/

/-- JS truthiness for an optional string: `undefined` and `""` are falsy. -/
def strTruthy : Option String → Bool
  | none => false
  | some s => s ≠ ""

/-- `Map.get k` on an insertion-ordered association list: the value of
the first (in a well-formed map, only) entry with key `k`. -/
def mapGet : List (String × α) → String → Option α
  | [], _ => none
  | kv :: t, k => if kv.1 = k then some kv.2 else mapGet t k

/-- `Map.has k`. -/
def mapHas : List (String × α) → String → Bool
  | [], _ => false
  | kv :: t, k => kv.1 = k || mapHas t k

/-- `Map.set k v`: replaces the entry in place when the key is present
(JS `Map` keeps the original insertion position), otherwise appends. -/
def mapSet : List (String × α) → String → α → List (String × α)
  | [], k, v => [(k, v)]
  | kv :: t, k, v => if kv.1 = k then (k, v) :: t else kv :: mapSet t k v

/-- The pathname of a request URL as extracted by
`new URL(req.url, 'http://localhost').pathname` for origin-form request
targets: the part of the URL before the first `?` (query) or `#`
(fragment). -/
def pathnameOf (url : String) : String :=
  String.mk (url.toList.takeWhile (fun c => c ≠ '?' && c ≠ '#'))

/-! ## Glob pattern matching

Modelled from the spec: `FunctionSet.regex` (the `function-set.ts` module
is not in the repository sources) compiles the behavior's glob-style path
pattern with `glob-to-regexp`: the pattern is anchored (must match the
whole path) and `*` matches any run of path characters; every other
character is literal. -/

/-- Anchored glob matching on character lists: `*` matches any run of
characters (it may consume any prefix, so the rest of the pattern is
tried against every suffix), everything else is literal. -/
def globMatchL : List Char → List Char → Bool
  | [], s => s.isEmpty
  | '*' :: ps, s => s.tails.any (fun t => globMatchL ps t)
  | _ :: _, [] => false
  | p :: ps, c :: cs => p = c && globMatchL ps cs

/-- `regex.test(path)` for the compiled matcher of `pattern`. -/
def globMatch (pattern path : String) : Bool :=
  globMatchL pattern.toList path.toList

/-! ## Data model -/

/-- The four edge-lambda event types (`lambdaAtEdge.eventType`). -/
inductive EventType
  | viewerRequest
  | originRequest
  | originResponse
  | viewerResponse
deriving DecidableEq, Repr

/-- An origin target (`Origin` from `./services`): carries the base URL it
was constructed with. -/
structure Origin where
  target : String
deriving DecidableEq, Repr

/-- Modelled from the spec: a `FunctionSet` (the `function-set.ts` module
is not in the repository sources) holds the path pattern it was
constructed with, one optional handler slot per stage — `setHandler`
fills the slot for the given event type, a later registration for an
already-filled stage replacing it — and the optional origin passed at
construction. -/
structure FunctionSet where
  pattern : String
  viewerRequest : Option String := none
  originRequest : Option String := none
  originResponse : Option String := none
  viewerResponse : Option String := none
  origin : Option Origin := none
deriving DecidableEq, Repr

/-- Modelled from the spec: `FunctionSet.setHandler(eventType, path)`
stores the handler path in the slot named by the event type, replacing
any previous handler for that stage. -/
def FunctionSet.setHandler (fs : FunctionSet) (et : EventType) (p : String) :
    FunctionSet :=
  match et with
  | .viewerRequest => { fs with viewerRequest := some p }
  | .originRequest => { fs with originRequest := some p }
  | .originResponse => { fs with originResponse := some p }
  | .viewerResponse => { fs with viewerResponse := some p }

/-- A freshly constructed `FunctionSet` for `pattern` with no handlers. -/
def emptyFunctionSet (pattern : String) (origin : Option Origin) :
    FunctionSet :=
  { pattern := pattern, origin := origin }

/-- The behavior registry: `BehaviorRouter.behaviors`, a
`Map<string, FunctionSet>`. -/
abbrev Registry := List (String × FunctionSet)

/-! ## BehaviorRouter.match -/

/-- `BehaviorRouter.match`: returns `none` when `req.url` is falsy;
otherwise scans the behaviors map in insertion order and returns the
first whose compiled pattern matches the URL's pathname, falling back to
the `*` entry (or `none` if absent). -/
def matchBehavior (url : Option String) (behaviors : Registry) :
    Option FunctionSet :=
  match url with
  | none => none
  | some u =>
    if u = "" then none
    else
      let pn := pathnameOf u
      match behaviors.find? (fun kv => globMatch kv.2.pattern pn) with
      | some kv => some kv.2
      | none => mapGet behaviors "*"

/-! ## extractBehaviors -/

/-- The `lambdaAtEdge` annotation on a serverless function definition. -/
structure LambdaAtEdge where
  pathPattern : Option String
  eventType : EventType
deriving DecidableEq, Repr

/-- A serverless function definition; `lambdaAtEdge` is `none` when the
definition has no `lambdaAtEdge` key (such definitions are filtered
out). -/
structure FunctionDef where
  handler : String
  lambdaAtEdge : Option LambdaAtEdge
deriving DecidableEq, Repr

/-- `def.lambdaAtEdge.pathPattern || '*'`. -/
def patternOf (la : LambdaAtEdge) : String :=
  match la.pathPattern with
  | none => "*"
  | some p => if p = "" then "*" else p

/-- `path.join(this.path, def.handler)` as used when registering a
handler; when the configured base path is empty it is just the handler
path. -/
def joinPath (base handler : String) : String :=
  if base = "" then handler else base ++ "/" ++ handler

/-- One iteration of the `extractBehaviors` loop: ensure a `FunctionSet`
exists for the definition's pattern (constructing it with the origin
configured for that pattern), then register the handler on it. -/
def extractStep (basePath : String) (origins : List (String × Origin))
    (bs : Registry) (d : FunctionDef) (la : LambdaAtEdge) : Registry :=
  let pattern := patternOf la
  let bs1 :=
    if mapHas bs pattern then bs
    else mapSet bs pattern (emptyFunctionSet pattern (mapGet origins pattern))
  match mapGet bs1 pattern with
  | some fs =>
      mapSet bs1 pattern (fs.setHandler la.eventType (joinPath basePath d.handler))
  | none => bs1

/-- The function definitions that carry a `lambdaAtEdge` annotation, in
declaration order, paired with that annotation. -/
def lambdaDefs (functions : List FunctionDef) :
    List (FunctionDef × LambdaAtEdge) :=
  functions.filterMap (fun d => d.lambdaAtEdge.map (fun la => (d, la)))

/-- `BehaviorRouter.extractBehaviors`: clears the behaviors map, groups
the annotated function definitions by path pattern into `FunctionSet`s,
and finally synthesizes an empty `*` behavior if none was registered.
`prior` is the previous contents of the map (discarded by `clear()`). -/
def extractBehaviors (basePath : String) (origins : List (String × Origin))
    (functions : List FunctionDef) (prior : Registry) : Registry :=
  let _ := prior
  let bs : Registry := []
  let bs := (lambdaDefs functions).foldl
    (fun bs p => extractStep basePath origins bs p.1 p.2) bs
  if mapHas bs "*" then bs
  else mapSet bs "*" (emptyFunctionSet "*" (mapGet origins "*"))

/-- The response produced by a completed lifecycle, as the router reads
it: a status string (CloudFront responses carry the status as a string,
hence the router's `parseInt`), an optional status description, headers
already flattened to `{key, value}` pairs by
`CloudFrontHeadersHelper.asHttpHeaders()` (a value may be `undefined`),
and an optional body. -/
structure ResponseArtifact where
  status : String
  statusDescription : Option String := none
  headers : List (String × Option String) := []
  body : Option String := none
deriving DecidableEq, Repr

/-! ## Errors and error formatting -/

/-- The `{code, message}` payload of an error's JSON body. Modelled from
the spec: the HTTP error classes (`./errors/http` is not in the
repository sources) expose `getResponsePayload()` returning a
`{code, message}` object. -/
structure ErrorPayload where
  code : Nat
  message : String
deriving DecidableEq, Repr

/-- An `HttpError` as consumed by `BehaviorRouter.handleError`. Modelled
from the spec where `./errors/http` is missing: it carries an optional
HTTP status code, a message, an optional stack, and `ownPayload` is
`some _` exactly when `err.hasOwnProperty('getResponsePayload')` holds,
in which case it is the `{code, message}` object that method returns. -/
structure HttpError where
  statusCode : Option Nat := none
  message : String
  stack : Option String := none
  ownPayload : Option ErrorPayload := none
deriving DecidableEq, Repr

/-- `new InternalServerError(msg)`: status code 500. Modelled from the
spec (`./errors/http` is not in the repository sources); class methods
are not own properties, so `hasOwnProperty('getResponsePayload')` is
false on it. -/
def internalServerError (msg : String) : HttpError :=
  { statusCode := some 500, message := msg }

/-- What a request handler writes as the response body:
nothing (`res.end()`), the lifecycle response's body
(`res.end(response.body)`), or a serialized JSON error object
(`res.end(JSON.stringify(payload))`). -/
inductive Body
  | empty
  | raw (b : Option String)
  | json (code : Nat) (message : String)
deriving DecidableEq, Repr

/-- `err.statusCode || StatusCodes.INTERNAL_SERVER_ERROR`: JS falsy
status codes (`undefined`, `0`) default to 500. -/
def errorStatus (err : HttpError) : Nat :=
  match err.statusCode with
  | none => 500
  | some n => if n = 0 then 500 else n

/-- The JSON object serialized by `handleError`: the error's own
response payload when it has one, otherwise
`{code: 500, message: err.stack || err.message}`. -/
def errorBody (err : HttpError) : Body :=
  match err.ownPayload with
  | some p => .json p.code p.message
  | none =>
      .json 500 (match err.stack with
        | none => err.message
        | some s => if s = "" then err.message else s)

/-- `BehaviorRouter.handleError(err, res)`: writes the error's status
code (default 500) and the serialized JSON error payload. -/
def handleError (err : HttpError) : Nat × Body :=
  (errorStatus err, errorBody err)

/-! ## The request handler -/

/-- What `lifecycle.run(req.url)` did for this request: resolved with a
response, resolved with `undefined`, or rejected (threw). The
`CloudFrontLifecycle` itself is an external collaborator (`./services`
is not in the repository sources); the router's claims are about its
control flow given the outcome. -/
inductive LifecycleOutcome
  | response (r : ResponseArtifact)
  | noResponse
  | threw (e : HttpError)
deriving DecidableEq, Repr

/-- Everything a single request observably does to the `ServerResponse`
and the shared services: the status code (`none` models `NaN` from
`parseInt` on a non-numeric status), status message, the headers set,
the body written, whether the cache was purged, whether behavior
matching ran, and whether a lifecycle was constructed and run. -/
structure RouterResult where
  status : Option Nat
  statusMessage : String := ""
  headers : List (String × String) := []
  body : Body
  purgedCache : Bool := false
  matchedBehavior : Option FunctionSet := none
  ranLifecycle : Bool := false
  thrown : Option HttpError := none
deriving DecidableEq, Repr

/-- `(req.method || '').toUpperCase()`. -/
def upperMethod (method : Option String) : String :=
  String.mk ((method.getD "").toList.map Char.toUpper)

/-- `parseInt(s, 10)` restricted to what the router needs: `some n` when
the string begins with digits, `none` (NaN) otherwise. Leading
whitespace and signs are not used by CloudFront status strings. -/
def parseIntStatus (s : String) : Option Nat :=
  let ds := s.toList.takeWhile Char.isDigit
  if ds.isEmpty then none
  else some (ds.foldl (fun n c => n * 10 + (c.toNat - '0'.toNat)) 0)

/-- Is a header with key `k` present among the headers set on the
response? -/
def hasHeader (hs : List (String × String)) (k : String) : Bool :=
  hs.any (fun h => h.1 = k)

/-- One `{key, value}` iteration of the header-setting loop:
`res.setHeader(key, value)` is called only when `value` is truthy, and
`setHeader` replaces any previously set value for the same key. -/
def setHeaderStep (acc : List (String × String)) (kv : String × Option String) :
    List (String × String) :=
  match kv.2 with
  | none => acc
  | some v =>
      if v = "" then acc
      else if hasHeader acc kv.1 then
        acc.map (fun h => if h.1 = kv.1 then (kv.1, v) else h)
      else acc ++ [(kv.1, v)]

/-- The header-setting loop over all `{key, value}` pairs produced by
`CloudFrontHeadersHelper.asHttpHeaders()`. -/
def setHeaders (pairs : List (String × Option String)) :
    List (String × String) :=
  pairs.foldl setHeaderStep []

/-- The request handler installed by `BehaviorRouter.listen`:
* a `PURGE` method (case-insensitive) purges the cache and answers 200
  with an empty body, before behavior matching;
* otherwise the behavior is matched; with no behavior the answer is 404
  with an empty body;
* otherwise the lifecycle runs; a missing response becomes an
  `InternalServerError`, and every thrown error is formatted by
  `handleError`; a response is serialized with truthy-valued headers
  only. -/
def handleRequest (behaviors : Registry) (method url : Option String)
    (outcome : LifecycleOutcome) : RouterResult :=
  if upperMethod method = "PURGE" then
    { status := some 200, body := .empty, purgedCache := true }
  else
    match matchBehavior url behaviors with
    | none => { status := some 404, body := .empty }
    | some fs =>
      match outcome with
      | .noResponse =>
          let err := internalServerError
            "No response set after full request lifecycle"
          { status := some (handleError err).1, body := (handleError err).2,
            matchedBehavior := some fs, ranLifecycle := true,
            thrown := some err }
      | .threw err =>
          { status := some (handleError err).1, body := (handleError err).2,
            matchedBehavior := some fs, ranLifecycle := true,
            thrown := some err }
      | .response r =>
          { status := parseIntStatus r.status,
            statusMessage := r.statusDescription.getD "",
            headers := setHeaders r.headers,
            body := .raw r.body,
            matchedBehavior := some fs, ranLifecycle := true }

/-! ## Association-list map lemmas -/

theorem mapHas_iff {m : List (String × α)} {k : String} :
    mapHas m k = true ↔ k ∈ m.map Prod.fst := by
  induction m with
  | nil => simp [mapHas]
  | cons kv t ih =>
    simp only [mapHas, Bool.or_eq_true, decide_eq_true_eq, List.map_cons,
      List.mem_cons, ih]
    constructor
    · rintro (h | h)
      · exact Or.inl h.symm
      · exact Or.inr h
    · rintro (h | h)
      · exact Or.inl h.symm
      · exact Or.inr h

theorem mapHas_eq_false_iff {m : List (String × α)} {k : String} :
    mapHas m k = false ↔ ∀ kv ∈ m, kv.1 ≠ k := by
  induction m with
  | nil => simp [mapHas]
  | cons kv t ih => simp [mapHas, ih]

theorem mapGet_eq_none_iff {m : List (String × α)} {k : String} :
    mapGet m k = none ↔ mapHas m k = false := by
  induction m with
  | nil => simp [mapGet, mapHas]
  | cons kv t ih =>
    by_cases h : kv.1 = k <;> simp [mapGet, mapHas, h, ih]

theorem mapGet_isSome_of_has {m : List (String × α)} {k : String}
    (h : mapHas m k = true) : (mapGet m k).isSome = true := by
  cases hg : mapGet m k with
  | none => rw [mapGet_eq_none_iff] at hg; rw [hg] at h; cases h
  | some v => rfl

theorem mapGet_mapSet_self (m : List (String × α)) (k : String) (v : α) :
    mapGet (mapSet m k v) k = some v := by
  induction m with
  | nil => simp [mapSet, mapGet]
  | cons kv t ih =>
    by_cases h : kv.1 = k <;> simp [mapSet, mapGet, h, ih]

theorem mapGet_mapSet_ne (m : List (String × α)) {k k' : String} (v : α)
    (h : k ≠ k') : mapGet (mapSet m k v) k' = mapGet m k' := by
  induction m with
  | nil => simp [mapSet, mapGet, h]
  | cons kv t ih =>
    by_cases hk : kv.1 = k
    · simp [mapSet, mapGet, hk, h]
    · simp only [mapSet, hk, if_false, ite_false]
      by_cases hk' : kv.1 = k' <;> simp [mapGet, hk', ih]

theorem keys_mapSet_of_has {m : List (String × α)} {k : String} (v : α)
    (h : mapHas m k = true) :
    (mapSet m k v).map Prod.fst = m.map Prod.fst := by
  induction m with
  | nil => cases h
  | cons kv t ih =>
    by_cases hk : kv.1 = k
    · simp [mapSet, hk]
    · simp [mapHas, hk] at h
      simp [mapSet, hk, ih h]

theorem mapSet_of_not_has {m : List (String × α)} {k : String} (v : α)
    (h : mapHas m k = false) : mapSet m k v = m ++ [(k, v)] := by
  induction m with
  | nil => simp [mapSet]
  | cons kv t ih =>
    simp [mapHas] at h
    simp [mapSet, h.1, ih h.2]

theorem nodup_keys_mapSet {m : List (String × α)} {k : String} (v : α)
    (h : (m.map Prod.fst).Nodup) :
    ((mapSet m k v).map Prod.fst).Nodup := by
  cases hk : mapHas m k with
  | true => rw [keys_mapSet_of_has v hk]; exact h
  | false =>
    rw [mapSet_of_not_has v hk]
    have : k ∉ m.map Prod.fst := fun hm => by
      rw [← mapHas_iff] at hm; rw [hm] at hk; cases hk
    simp [List.nodup_append, h, this]

theorem mapGet_of_mem_nodup {m : List (String × α)} {kv : String × α}
    (hnd : (m.map Prod.fst).Nodup) (h : kv ∈ m) :
    mapGet m kv.1 = some kv.2 := by
  induction m with
  | nil => cases h
  | cons a t ih =>
    rcases List.mem_cons.mp h with h | h
    · subst h; simp [mapGet]
    · have ha : a.1 ≠ kv.1 := by
        intro he
        have : kv.1 ∈ t.map Prod.fst := List.mem_map.mpr ⟨kv, h, rfl⟩
        rw [← he] at this
        exact (List.nodup_cons.mp hnd).1 this
      simp [mapGet, ha]
      exact ih (List.nodup_cons.mp hnd).2 h

theorem mapGet_append (m1 m2 : List (String × α)) (k : String) :
    mapGet (m1 ++ m2) k =
      match mapGet m1 k with
      | some v => some v
      | none => mapGet m2 k := by
  induction m1 with
  | nil => simp [mapGet]
  | cons kv t ih =>
    by_cases h : kv.1 = k <;> simp [mapGet, h, ih]

/-! ## Characterizing the registry built by extractBehaviors -/

/-- The `FunctionSet` the registry should associate to pattern `p`: the
registrations for `p`, in order, folded into a fresh `FunctionSet`
constructed with the origin configured for `p`. -/
def buildFS (basePath : String) (origins : List (String × Origin))
    (p : String) (ds : List (FunctionDef × LambdaAtEdge)) : FunctionSet :=
  (ds.filter (fun d => patternOf d.2 = p)).foldl
    (fun fs d => fs.setHandler d.2.eventType (joinPath basePath d.1.handler))
    (emptyFunctionSet p (mapGet origins p))

theorem FunctionSet.pattern_setHandler (fs : FunctionSet) (et : EventType)
    (p : String) : (fs.setHandler et p).pattern = fs.pattern := by
  cases et <;> rfl

theorem pattern_foldl_setHandler (basePath : String) (fs0 : FunctionSet)
    (ds : List (FunctionDef × LambdaAtEdge)) :
    (ds.foldl
      (fun fs d => fs.setHandler d.2.eventType (joinPath basePath d.1.handler))
      fs0).pattern = fs0.pattern := by
  induction ds generalizing fs0 with
  | nil => rfl
  | cons d t ih => rw [List.foldl_cons, ih, FunctionSet.pattern_setHandler]

theorem buildFS_pattern (basePath : String) (origins : List (String × Origin))
    (p : String) (ds : List (FunctionDef × LambdaAtEdge)) :
    (buildFS basePath origins p ds).pattern = p := by
  rw [buildFS, pattern_foldl_setHandler]
  rfl

theorem mapHas_eq_isSome (m : List (String × α)) (k : String) :
    mapHas m k = (mapGet m k).isSome := by
  induction m with
  | nil => rfl
  | cons kv t ih =>
    by_cases h : kv.1 = k <;> simp [mapHas, mapGet, h, ih]

theorem extractStep_keys_has {basePath : String}
    {origins : List (String × Origin)} {bs : Registry} {d : FunctionDef}
    {la : LambdaAtEdge} (h : mapHas bs (patternOf la) = true) :
    (extractStep basePath origins bs d la).map Prod.fst = bs.map Prod.fst := by
  have hg : (mapGet bs (patternOf la)).isSome = true := mapGet_isSome_of_has h
  cases he : mapGet bs (patternOf la) with
  | none => rw [he] at hg; cases hg
  | some fs =>
    rw [extractStep]
    simp only [h, ite_true, he]
    exact keys_mapSet_of_has _ h

theorem extractStep_keys_new {basePath : String}
    {origins : List (String × Origin)} {bs : Registry} {d : FunctionDef}
    {la : LambdaAtEdge} (h : mapHas bs (patternOf la) = false) :
    (extractStep basePath origins bs d la).map Prod.fst =
      bs.map Prod.fst ++ [patternOf la] := by
  have he := mapGet_mapSet_self bs (patternOf la)
    (emptyFunctionSet (patternOf la) (mapGet origins (patternOf la)))
  have hh : mapHas (mapSet bs (patternOf la)
      (emptyFunctionSet (patternOf la) (mapGet origins (patternOf la))))
      (patternOf la) = true := by
    rw [mapHas_eq_isSome, he]
    rfl
  rw [extractStep]
  simp only [h, Bool.false_eq_true, ite_false, he]
  rw [keys_mapSet_of_has _ hh, mapSet_of_not_has _ h]
  simp

theorem extractStep_get_self {basePath : String}
    {origins : List (String × Origin)} {bs : Registry} {d : FunctionDef}
    {la : LambdaAtEdge} :
    mapGet (extractStep basePath origins bs d la) (patternOf la) =
      some ((match mapGet bs (patternOf la) with
             | some fs => fs
             | none => emptyFunctionSet (patternOf la)
                 (mapGet origins (patternOf la))).setHandler la.eventType
               (joinPath basePath d.handler)) := by
  cases he : mapGet bs (patternOf la) with
  | some fs =>
    have h : mapHas bs (patternOf la) = true := by
      rw [mapHas_eq_isSome, he]
      rfl
    rw [extractStep]
    simp only [h, ite_true, he]
    exact mapGet_mapSet_self _ _ _
  | none =>
    have h : mapHas bs (patternOf la) = false := mapGet_eq_none_iff.mp he
    have he2 := mapGet_mapSet_self bs (patternOf la)
      (emptyFunctionSet (patternOf la) (mapGet origins (patternOf la)))
    rw [extractStep]
    simp only [h, Bool.false_eq_true, ite_false, he2]
    exact mapGet_mapSet_self _ _ _

theorem extractStep_get_ne {basePath : String}
    {origins : List (String × Origin)} {bs : Registry} {d : FunctionDef}
    {la : LambdaAtEdge} {p : String} (h : p ≠ patternOf la) :
    mapGet (extractStep basePath origins bs d la) p = mapGet bs p := by
  cases he : mapGet bs (patternOf la) with
  | some fs =>
    have hh : mapHas bs (patternOf la) = true := by
      rw [mapHas_eq_isSome, he]
      rfl
    rw [extractStep]
    simp only [hh, ite_true, he]
    exact mapGet_mapSet_ne _ _ (Ne.symm h)
  | none =>
    have hh : mapHas bs (patternOf la) = false := mapGet_eq_none_iff.mp he
    have he2 := mapGet_mapSet_self bs (patternOf la)
      (emptyFunctionSet (patternOf la) (mapGet origins (patternOf la)))
    rw [extractStep]
    simp only [hh, Bool.false_eq_true, ite_false, he2]
    rw [mapGet_mapSet_ne _ _ (Ne.symm h), mapGet_mapSet_ne _ _ (Ne.symm h)]

theorem buildFS_append_self {basePath : String}
    {origins : List (String × Origin)} {p : String}
    {l : List (FunctionDef × LambdaAtEdge)} {d : FunctionDef × LambdaAtEdge}
    (hq : patternOf d.2 = p) :
    buildFS basePath origins p (l ++ [d]) =
      (buildFS basePath origins p l).setHandler d.2.eventType
        (joinPath basePath d.1.handler) := by
  rw [buildFS, buildFS, List.filter_append, List.foldl_append]
  simp [List.filter, hq]

theorem buildFS_append_ne {basePath : String}
    {origins : List (String × Origin)} {p : String}
    {l : List (FunctionDef × LambdaAtEdge)} {d : FunctionDef × LambdaAtEdge}
    (hq : ¬ patternOf d.2 = p) :
    buildFS basePath origins p (l ++ [d]) = buildFS basePath origins p l := by
  rw [buildFS, buildFS, List.filter_append]
  simp [List.filter, hq]

theorem buildFS_not_mem {basePath : String}
    {origins : List (String × Origin)} {p : String}
    {ds : List (FunctionDef × LambdaAtEdge)}
    (h : ∀ d ∈ ds, patternOf d.2 ≠ p) :
    buildFS basePath origins p ds = emptyFunctionSet p (mapGet origins p) := by
  rw [buildFS, List.filter_eq_nil_iff.mpr ?_]
  · rfl
  · intro a ha
    simp [h a ha]

/-- Characterization of the registry the `extractBehaviors` loop builds
from an empty map: the keys are exactly the patterns of the processed
definitions, without duplicates, and each key maps to the fold of its
registrations. -/
theorem extractLoop_char (basePath : String) (origins : List (String × Origin))
    (ds : List (FunctionDef × LambdaAtEdge)) :
    (((ds.foldl (fun bs d => extractStep basePath origins bs d.1 d.2)
        []).map Prod.fst).Nodup) ∧
    ∀ p, mapGet (ds.foldl (fun bs d => extractStep basePath origins bs d.1 d.2)
        []) p =
      if p ∈ ds.map (fun d => patternOf d.2)
      then some (buildFS basePath origins p ds) else none := by
  induction ds using List.reverseRecOn with
  | nil =>
    refine ⟨List.nodup_nil, fun p => ?_⟩
    simp [mapGet]
  | append_singleton l d ih =>
    obtain ⟨hnd, hget⟩ := ih
    rw [List.foldl_append]
    set bs := l.foldl (fun bs d => extractStep basePath origins bs d.1 d.2) []
      with hbs
    simp only [List.foldl_cons, List.foldl_nil]
    by_cases hq : patternOf d.2 ∈ l.map (fun d => patternOf d.2)
    · have hqget : mapGet bs (patternOf d.2) =
          some (buildFS basePath origins (patternOf d.2) l) := by
        rw [hget (patternOf d.2), if_pos hq]
      have hqhas : mapHas bs (patternOf d.2) = true := by
        rw [mapHas_eq_isSome, hqget]
        rfl
      refine ⟨?_, fun p => ?_⟩
      · rw [extractStep_keys_has hqhas]
        exact hnd
      · by_cases hp : p = patternOf d.2
        · subst hp
          rw [extractStep_get_self, hqget]
          rw [if_pos (by simp), buildFS_append_self rfl]
        · rw [extractStep_get_ne hp, hget p]
          have hmem : (p ∈ (l ++ [d]).map (fun d => patternOf d.2)) ↔
              p ∈ l.map (fun d => patternOf d.2) := by
            simp [hp]
          by_cases hpl : p ∈ l.map (fun d => patternOf d.2)
          · rw [if_pos hpl, if_pos (hmem.mpr hpl),
              buildFS_append_ne (fun he => hp (he.symm))]
          · rw [if_neg hpl, if_neg (fun hc => hpl (hmem.mp hc))]
    · have hqget : mapGet bs (patternOf d.2) = none := by
        rw [hget (patternOf d.2), if_neg hq]
      have hqhas : mapHas bs (patternOf d.2) = false :=
        mapGet_eq_none_iff.mp hqget
      have hnil : ∀ x ∈ l, patternOf x.2 ≠ patternOf d.2 := by
        intro x hx he
        exact hq (List.mem_map.mpr ⟨x, hx, he⟩)
      refine ⟨?_, fun p => ?_⟩
      · rw [extractStep_keys_new hqhas]
        have hnk : patternOf d.2 ∉ bs.map Prod.fst := by
          intro hc
          rw [← mapHas_iff] at hc
          rw [hc] at hqhas
          cases hqhas
        simp [List.nodup_append, hnd, hnk]
      · by_cases hp : p = patternOf d.2
        · subst hp
          rw [extractStep_get_self, hqget]
          rw [if_pos (by simp), buildFS_append_self rfl,
            buildFS_not_mem hnil]
        · rw [extractStep_get_ne hp, hget p]
          have hmem : (p ∈ (l ++ [d]).map (fun d => patternOf d.2)) ↔
              p ∈ l.map (fun d => patternOf d.2) := by
            simp [hp]
          by_cases hpl : p ∈ l.map (fun d => patternOf d.2)
          · rw [if_pos hpl, if_pos (hmem.mpr hpl),
              buildFS_append_ne (fun he => hp (he.symm))]
          · rw [if_neg hpl, if_neg (fun hc => hpl (hmem.mp hc))]

/-- Characterization of the full registry build: keys unduplicated, the
`*` entry present, and every key mapped to the fold of its
registrations (for `*`, a synthesized empty behavior when nothing
registered it, since then its registration list is empty). -/
theorem extractBehaviors_char (basePath : String)
    (origins : List (String × Origin)) (functions : List FunctionDef)
    (prior : Registry) :
    (((extractBehaviors basePath origins functions prior).map
        Prod.fst).Nodup) ∧
    mapHas (extractBehaviors basePath origins functions prior) "*" = true ∧
    ∀ p, mapGet (extractBehaviors basePath origins functions prior) p =
      if p = "*" ∨
          p ∈ (lambdaDefs functions).map (fun d => patternOf d.2)
      then some (buildFS basePath origins p (lambdaDefs functions))
      else none := by
  obtain ⟨hnd, hget⟩ := extractLoop_char basePath origins (lambdaDefs functions)
  rw [extractBehaviors]
  set bs := (lambdaDefs functions).foldl
    (fun bs d => extractStep basePath origins bs d.1 d.2) [] with hbs
  cases hstar : mapHas bs "*" with
  | true =>
    simp only [ite_true]
    have hsmem : "*" ∈ (lambdaDefs functions).map (fun d => patternOf d.2) := by
      have := hget "*"
      rw [mapHas_eq_isSome] at hstar
      by_contra hc
      rw [if_neg hc] at this
      rw [this] at hstar
      cases hstar
    refine ⟨hnd, hstar, fun p => ?_⟩
    rw [hget p]
    by_cases hp : p = "*"
    · subst hp
      rw [if_pos hsmem, if_pos (Or.inl rfl)]
    · by_cases hpl : p ∈ (lambdaDefs functions).map (fun d => patternOf d.2)
      · rw [if_pos hpl, if_pos (Or.inr hpl)]
      · rw [if_neg hpl, if_neg (by simp [hp, hpl])]
  | false =>
    simp only [Bool.false_eq_true, ite_false]
    have hnot : "*" ∉ (lambdaDefs functions).map (fun d => patternOf d.2) := by
      intro hc
      have := hget "*"
      rw [if_pos hc] at this
      rw [mapHas_eq_isSome, this] at hstar
      cases hstar
    have hnil : ∀ x ∈ lambdaDefs functions, patternOf x.2 ≠ "*" := by
      intro x hx he
      exact hnot (List.mem_map.mpr ⟨x, hx, he⟩)
    refine ⟨?_, ?_, fun p => ?_⟩
    · rw [mapSet_of_not_has _ hstar]
      have hnk : "*" ∉ bs.map Prod.fst := by
        intro hc
        rw [← mapHas_iff] at hc
        rw [hc] at hstar
        cases hstar
      simp [List.nodup_append, hnd, hnk]
    · rw [mapHas_eq_isSome, mapGet_mapSet_self]
      rfl
    · by_cases hp : p = "*"
      · subst hp
        rw [mapGet_mapSet_self, if_pos (Or.inl rfl), buildFS_not_mem hnil]
      · rw [mapGet_mapSet_ne _ _ (fun he => hp he.symm), hget p]
        by_cases hpl : p ∈ (lambdaDefs functions).map (fun d => patternOf d.2)
        · rw [if_pos hpl, if_pos (Or.inr hpl)]
        · rw [if_neg hpl, if_neg (by simp [hp, hpl])]

/-- When no registration used pattern `*`, the built registry is the
loop result with the synthesized empty `*` behavior appended at the
end, and no loop entry has key `*`. -/
theorem extractBehaviors_no_star (basePath : String)
    (origins : List (String × Origin)) (functions : List FunctionDef)
    (prior : Registry)
    (h : ∀ dla ∈ lambdaDefs functions, patternOf dla.2 ≠ "*") :
    extractBehaviors basePath origins functions prior =
      ((lambdaDefs functions).foldl
        (fun bs d => extractStep basePath origins bs d.1 d.2) [])
        ++ [("*", emptyFunctionSet "*" (mapGet origins "*"))] ∧
    ∀ kv ∈ (lambdaDefs functions).foldl
        (fun bs d => extractStep basePath origins bs d.1 d.2) [],
      kv.1 ≠ "*" := by
  obtain ⟨hnd, hget⟩ := extractLoop_char basePath origins (lambdaDefs functions)
  set bs := (lambdaDefs functions).foldl
    (fun bs d => extractStep basePath origins bs d.1 d.2) [] with hbs
  have hnot : "*" ∉ (lambdaDefs functions).map (fun d => patternOf d.2) := by
    intro hc
    obtain ⟨x, hx, he⟩ := List.mem_map.mp hc
    exact h x hx he
  have hstar : mapHas bs "*" = false := by
    rw [mapHas_eq_isSome, hget "*", if_neg hnot]
    rfl
  refine ⟨?_, mapHas_eq_false_iff.mp hstar⟩
  rw [extractBehaviors]
  simp only [← hbs, hstar, Bool.false_eq_true, ite_false]
  exact mapSet_of_not_has _ hstar

/-! ## Remaining helper lemmas -/

theorem globMatchL_star (s : List Char) : globMatchL ['*'] s = true := by
  rw [globMatchL]
  apply List.any_eq_true.mpr
  refine ⟨[], ?_, rfl⟩
  rw [List.mem_tails]
  exact List.nil_suffix

theorem globMatch_star (s : String) : globMatch "*" s = true :=
  globMatchL_star s.toList

/-- The resolution rule as the specification words it (for comparison
with `matchBehavior`): evaluate only the non-wildcard behaviors, in
registration order, returning the first whose matcher matches the
pathname; consult the `*` behavior only as a fallback. -/
def resolveSpec (u : String) (behaviors : Registry) : Option FunctionSet :=
  match (behaviors.filter (fun kv => kv.1 ≠ "*")).find?
      (fun kv => globMatch kv.2.pattern (pathnameOf u)) with
  | some kv => some kv.2
  | none => mapGet behaviors "*"

theorem hasHeader_map_replace (acc : List (String × String))
    (hk v k : String) :
    hasHeader (acc.map (fun h => if h.1 = hk then (hk, v) else h)) k =
      hasHeader acc k := by
  induction acc with
  | nil => rfl
  | cons h t ih =>
    by_cases hh : h.1 = hk
    · simp only [List.map_cons, hh, ite_true]
      simp only [hasHeader, List.any_cons] at ih ⊢
      rw [ih, hh]
    · simp only [List.map_cons, hh, ite_false, if_neg hh]
      simp only [hasHeader, List.any_cons] at ih ⊢
      rw [ih]

theorem hasHeader_setHeaderStep (acc : List (String × String))
    (kv : String × Option String) (k : String) :
    hasHeader (setHeaderStep acc kv) k =
      (hasHeader acc k || (kv.1 = k && strTruthy kv.2)) := by
  rcases kv with ⟨hk, hv⟩
  cases hv with
  | none => simp [setHeaderStep, strTruthy]
  | some v =>
    by_cases hve : v = ""
    · simp [setHeaderStep, strTruthy, hve]
    · simp only [setHeaderStep, strTruthy, hve, ite_false, if_neg hve]
      by_cases hhas : hasHeader acc hk = true
      · rw [if_pos hhas, hasHeader_map_replace]
        by_cases hkk : hk = k
        · subst hkk
          rw [hhas]
          simp
        · simp [hkk, hve]
      · rw [if_neg hhas]
        simp [hasHeader, List.any_append, hve]

theorem hasHeader_foldl (pairs : List (String × Option String))
    (acc : List (String × String)) (k : String) :
    hasHeader (pairs.foldl setHeaderStep acc) k =
      (hasHeader acc k ||
        pairs.any (fun kv => kv.1 = k && strTruthy kv.2)) := by
  induction pairs generalizing acc with
  | nil => simp
  | cons kv t ih =>
    rw [List.foldl_cons, ih, hasHeader_setHeaderStep]
    simp [Bool.or_assoc]

theorem setHeaders_hasHeader (pairs : List (String × Option String))
    (k : String) :
    hasHeader (setHeaders pairs) k =
      pairs.any (fun kv => kv.1 = k && strTruthy kv.2) := by
  rw [setHeaders, hasHeader_foldl]
  rfl

/-- Is the written body a serialized JSON error object? -/
def isJsonBody : Body → Bool
  | .json _ _ => true
  | _ => false

/-! ## Sample configurations used by witnesses and counterexamples -/

/-- Two function definitions: the first registers pattern `*`
explicitly, the second registers `/api/*`. -/
def starFirstFunctions : List FunctionDef :=
  [ { handler := "handlers.first",
      lambdaAtEdge := some { pathPattern := some "*",
                             eventType := .viewerRequest } },
    { handler := "handlers.second",
      lambdaAtEdge := some { pathPattern := some "/api/*",
                             eventType := .viewerRequest } } ]

/-- A single function definition registering pattern `/api/*`. -/
def apiOnlyFunctions : List FunctionDef :=
  [ { handler := "handlers.api",
      lambdaAtEdge := some { pathPattern := some "/api/*",
                             eventType := .originRequest } } ]

/-! ## The claims -/

/-- C1: for every incoming request (whose URL, as on any parsed HTTP
request, is a nonempty string) processed against a registry built by
`extractBehaviors`, `match` returns a behavior and never `null`; and if
no non-wildcard entry matches the pathname, the result is the `*`
behavior, which exists after construction. -/
theorem match_total_after_build (basePath : String)
    (origins : List (String × Origin)) (functions : List FunctionDef)
    (prior : Registry) (u : String) (hu : ¬ u = "") :
    ((matchBehavior (some u)
        (extractBehaviors basePath origins functions prior)).isSome = true) ∧
    ((∀ kv ∈ extractBehaviors basePath origins functions prior,
        kv.1 ≠ "*" → globMatch kv.2.pattern (pathnameOf u) = false) →
      matchBehavior (some u) (extractBehaviors basePath origins functions prior)
        = mapGet (extractBehaviors basePath origins functions prior) "*") := by
  obtain ⟨hnd, hhas, -⟩ := extractBehaviors_char basePath origins functions prior
  constructor
  · cases hf : (extractBehaviors basePath origins functions prior).find?
        (fun kv => globMatch kv.2.pattern (pathnameOf u)) with
    | some kv => simp [matchBehavior, hu, hf]
    | none =>
      simp only [matchBehavior, hu, ite_false, if_neg hu, hf]
      exact mapGet_isSome_of_has hhas
  · intro hno
    cases hf : (extractBehaviors basePath origins functions prior).find?
        (fun kv => globMatch kv.2.pattern (pathnameOf u)) with
    | none => simp [matchBehavior, hu, hf]
    | some kv =>
      have hm := List.mem_of_find?_eq_some hf
      have hp := List.find?_some hf
      have hkstar : kv.1 = "*" := by
        by_contra hc
        rw [hno kv hm hc] at hp
        cases hp
      have hkv := mapGet_of_mem_nodup hnd hm
      rw [hkstar] at hkv
      simp [matchBehavior, hu, hf, hkv]

/-- C1 witness: with no registered functions the registry is just the
synthesized `*` behavior; a request for `/img/logo.png` resolves to it
and resolution is not absent. -/
theorem match_total_after_build_witness :
    ((matchBehavior (some "/img/logo.png")
        (extractBehaviors "" [] [] [])).isSome = true) ∧
    (matchBehavior (some "/img/logo.png") (extractBehaviors "" [] [] []) =
      mapGet (extractBehaviors "" [] [] []) "*") :=
  ⟨(match_total_after_build "" [] [] [] "/img/logo.png" (by decide)).1,
   (match_total_after_build "" [] [] [] "/img/logo.png" (by decide)).2
     (by decide)⟩

/-- C2 counterexample: with `*` registered first and `/api/*` second,
the request path `/api/users` is resolved by the code to the `*`
behavior (the scan loop iterates over the `*` entry too, and its
matcher matches every path), not to the matching non-wildcard behavior
`/api/*` that the claimed rule (`resolveSpec`) selects. -/
theorem match_scan_counterexample :
    matchBehavior (some "/api/users")
        (extractBehaviors "" [] starFirstFunctions []) ≠
      resolveSpec "/api/users" (extractBehaviors "" [] starFirstFunctions [])
    := by decide

/-- C2 (amended): the scan loop iterates over all registered behaviors
in registration order, the `*` entry included; since the `*` matcher
matches every path, an explicitly registered `*` shadows every behavior
registered after it. When no registration used pattern `*` — so the
catch-all is synthesized and sits last — the claimed rule holds exactly:
the first matching non-wildcard behavior in registration order wins and
`*` is consulted only as a fallback. -/
theorem match_scan_registration_order (basePath : String)
    (origins : List (String × Origin)) (functions : List FunctionDef)
    (prior : Registry) (u : String)
    (hstar : ∀ dla ∈ lambdaDefs functions, patternOf dla.2 ≠ "*")
    (hu : ¬ u = "") :
    matchBehavior (some u) (extractBehaviors basePath origins functions prior)
      = resolveSpec u (extractBehaviors basePath origins functions prior) := by
  obtain ⟨hr, hbs⟩ := extractBehaviors_no_star basePath origins functions
    prior hstar
  rw [hr]
  have hfilter : ((lambdaDefs functions).foldl
        (fun bs d => extractStep basePath origins bs d.1 d.2) []
        ++ [("*", emptyFunctionSet "*" (mapGet origins "*"))]).filter
        (fun kv => kv.1 ≠ "*") =
      (lambdaDefs functions).foldl
        (fun bs d => extractStep basePath origins bs d.1 d.2) [] := by
    rw [List.filter_append]
    rw [List.filter_eq_self.mpr (by
      intro kv hkv
      simpa using hbs kv hkv)]
    simp
  have hstarMatch : globMatch
      (emptyFunctionSet "*" (mapGet origins "*")).pattern (pathnameOf u)
      = true := globMatch_star _
  have hgetStar : mapGet ((lambdaDefs functions).foldl
        (fun bs d => extractStep basePath origins bs d.1 d.2) []
        ++ [("*", emptyFunctionSet "*" (mapGet origins "*"))]) "*" =
      some (emptyFunctionSet "*" (mapGet origins "*")) := by
    rw [mapGet_append]
    rw [mapGet_eq_none_iff.mpr (mapHas_eq_false_iff.mpr hbs)]
    simp [mapGet]
  cases hf : ((lambdaDefs functions).foldl
      (fun bs d => extractStep basePath origins bs d.1 d.2) []).find?
      (fun kv => globMatch kv.2.pattern (pathnameOf u)) with
  | some kv =>
    simp only [matchBehavior, resolveSpec, if_neg hu, hfilter,
      List.find?_append, hf, Option.or]
  | none =>
    simp only [matchBehavior, resolveSpec, if_neg hu, hfilter,
      List.find?_append, hf, Option.or, List.find?_cons, hstarMatch,
      ite_true, hgetStar]

/-- C2 witness for the amended claim: with only `/api/*` registered, the
code resolution and the specified rule agree on `/api/users`. -/
theorem match_scan_registration_order_witness :
    matchBehavior (some "/api/users")
        (extractBehaviors "" [] apiOnlyFunctions []) =
      resolveSpec "/api/users" (extractBehaviors "" [] apiOnlyFunctions []) :=
  match_scan_registration_order "" [] apiOnlyFunctions [] "/api/users"
    (by decide) (by decide)

/-- C3: a request whose (upper-cased) method is `PURGE` is intercepted
before behavior matching: the cache is purged, the response is status
200 with an empty body, no behavior is matched and no lifecycle is
constructed or run. -/
theorem purge_intercepted (behaviors : Registry) (method url : Option String)
    (outcome : LifecycleOutcome) (h : upperMethod method = "PURGE") :
    handleRequest behaviors method url outcome =
      { status := some 200, statusMessage := "", headers := [],
        body := .empty, purgedCache := true, matchedBehavior := none,
        ranLifecycle := false, thrown := none } := by
  rw [handleRequest, if_pos h]

/-- C3 witness: a concrete `PURGE` request. -/
theorem purge_intercepted_witness :
    handleRequest [] (some "PURGE") (some "/assets/app.js")
        (.threw { message := "ignored" }) =
      { status := some 200, statusMessage := "", headers := [],
        body := .empty, purgedCache := true, matchedBehavior := none,
        ranLifecycle := false, thrown := none } :=
  purge_intercepted [] (some "PURGE") (some "/assets/app.js")
    (.threw { message := "ignored" }) (by decide)

/-- C4: `handleError` writes the error's status code, defaulting to 500
when the error carries none, and a JSON body with a `code` and a
`message` field. -/
theorem error_status_and_json_body (err : HttpError) :
    (err.statusCode = none → (handleError err).1 = 500) ∧
    (∀ n, err.statusCode = some n → 0 < n → (handleError err).1 = n) ∧
    (∃ c m, (handleError err).2 = Body.json c m) := by
  refine ⟨?_, ?_, ?_⟩
  · intro h
    simp [handleError, errorStatus, h]
  · intro n h hn
    simp [handleError, errorStatus, h, Nat.pos_iff_ne_zero.mp hn]
  · cases hp : err.ownPayload with
    | some p =>
      exact ⟨p.code, p.message, by simp [handleError, errorBody, hp]⟩
    | none =>
      refine ⟨500, (match err.stack with
        | none => err.message
        | some s => if s = "" then err.message else s), ?_⟩
      simp [handleError, errorBody, hp]

/-- C4 witness: an error with no status code is written as 500. -/
theorem error_status_and_json_body_witness :
    (handleError { message := "boom" }).1 = 500 :=
  (error_status_and_json_body { message := "boom" }).1 rfl

/-- C5: when the lifecycle completes without producing a response, the
router raises the incomplete-lifecycle error (realized in the code as
`new InternalServerError("No response set after full request
lifecycle")`) and answers with its 500 JSON error body instead of
serializing an absent response. -/
theorem no_response_fails (behaviors : Registry) (method url : Option String)
    (fs : FunctionSet) (hm : ¬ upperMethod method = "PURGE")
    (hmatch : matchBehavior url behaviors = some fs) :
    handleRequest behaviors method url .noResponse =
      { status := some 500, statusMessage := "", headers := [],
        body := .json 500 "No response set after full request lifecycle",
        purgedCache := false, matchedBehavior := some fs,
        ranLifecycle := true,
        thrown := some (internalServerError
          "No response set after full request lifecycle") } := by
  rw [handleRequest, if_neg hm, hmatch]
  rfl

/-- C5 witness: a concrete request against the catch-all registry whose
lifecycle yields no response. -/
theorem no_response_fails_witness :
    handleRequest [("*", emptyFunctionSet "*" none)] (some "GET")
        (some "/missing") .noResponse =
      { status := some 500, statusMessage := "", headers := [],
        body := .json 500 "No response set after full request lifecycle",
        purgedCache := false,
        matchedBehavior := some (emptyFunctionSet "*" none),
        ranLifecycle := true,
        thrown := some (internalServerError
          "No response set after full request lifecycle") } :=
  no_response_fails [("*", emptyFunctionSet "*" none)] (some "GET")
    (some "/missing") (emptyFunctionSet "*" none) (by decide) (by decide)

/-- C6 counterexample: a request that resolves to no behavior (its URL
is absent, the only way `match` yields null) is answered with status 404
and an empty body — not with a structured JSON error body as claimed. -/
theorem no_match_counterexample :
    (handleRequest [("*", emptyFunctionSet "*" none)] (some "GET") none
        .noResponse).status = some 404 ∧
    isJsonBody (handleRequest [("*", emptyFunctionSet "*" none)] (some "GET")
        none .noResponse).body = false := by
  decide

/-- C6 (amended): when behavior resolution yields no behavior, the
router responds with status 404 and an empty (not JSON) body. -/
theorem no_match_404_empty (behaviors : Registry) (method url : Option String)
    (outcome : LifecycleOutcome) (hm : ¬ upperMethod method = "PURGE")
    (hmatch : matchBehavior url behaviors = none) :
    handleRequest behaviors method url outcome =
      { status := some 404, statusMessage := "", headers := [],
        body := .empty, purgedCache := false, matchedBehavior := none,
        ranLifecycle := false, thrown := none } := by
  rw [handleRequest, if_neg hm, hmatch]

/-- C6 witness for the amended claim: a concrete URL-less request. -/
theorem no_match_404_empty_witness :
    handleRequest [] (some "GET") none .noResponse =
      { status := some 404, statusMessage := "", headers := [],
        body := .empty, purgedCache := false, matchedBehavior := none,
        ranLifecycle := false, thrown := none } :=
  no_match_404_empty [] (some "GET") none .noResponse (by decide) (by decide)

/-- C7: after `extractBehaviors`, each distinct pattern maps to exactly
one behavior: keys are unduplicated, each stored behavior carries its
key as pattern, every registered pattern has an entry and that entry is
the accumulation of all its registrations in order, every stored
behavior is such an accumulation, exactly one `*` behavior exists, and
it is a synthesized empty one when no registration used `*`. -/
theorem registry_grouping (basePath : String)
    (origins : List (String × Origin)) (functions : List FunctionDef)
    (prior : Registry) :
    (((extractBehaviors basePath origins functions prior).map
        Prod.fst).Nodup) ∧
    (∀ kv ∈ extractBehaviors basePath origins functions prior,
      kv.2.pattern = kv.1) ∧
    (mapHas (extractBehaviors basePath origins functions prior) "*" = true) ∧
    (∀ p, p ∈ (lambdaDefs functions).map (fun d => patternOf d.2) →
      mapGet (extractBehaviors basePath origins functions prior) p =
        some (buildFS basePath origins p (lambdaDefs functions))) ∧
    (∀ p fs, mapGet (extractBehaviors basePath origins functions prior) p =
        some fs → fs = buildFS basePath origins p (lambdaDefs functions)) ∧
    ((∀ dla ∈ lambdaDefs functions, patternOf dla.2 ≠ "*") →
      mapGet (extractBehaviors basePath origins functions prior) "*" =
        some (emptyFunctionSet "*" (mapGet origins "*"))) := by
  obtain ⟨hnd, hhas, hget⟩ :=
    extractBehaviors_char basePath origins functions prior
  have hofget : ∀ p fs,
      mapGet (extractBehaviors basePath origins functions prior) p = some fs →
      fs = buildFS basePath origins p (lambdaDefs functions) := by
    intro p fs h
    rw [hget p] at h
    by_cases hc : p = "*" ∨
        p ∈ (lambdaDefs functions).map (fun d => patternOf d.2)
    · rw [if_pos hc] at h
      exact (Option.some_injective _ h).symm
    · rw [if_neg hc] at h
      cases h
  refine ⟨hnd, ?_, hhas, ?_, hofget, ?_⟩
  · intro kv hkv
    have := mapGet_of_mem_nodup hnd hkv
    rw [hofget kv.1 kv.2 this, buildFS_pattern]
  · intro p hp
    rw [hget p, if_pos (Or.inr hp)]
  · intro hnostar
    rw [hget "*", if_pos (Or.inl rfl)]
    rw [buildFS_not_mem hnostar]

/-- C7 witness: with only `/api/*` registered, the `/api/*` entry exists
and is the fold of its registrations, and the `*` entry is the
synthesized empty behavior. -/
theorem registry_grouping_witness :
    (mapGet (extractBehaviors "" [] apiOnlyFunctions []) "/api/*" =
      some (buildFS "" [] "/api/*" (lambdaDefs apiOnlyFunctions))) ∧
    (mapGet (extractBehaviors "" [] apiOnlyFunctions []) "*" =
      some (emptyFunctionSet "*"
        (mapGet ([] : List (String × Origin)) "*"))) :=
  ⟨(registry_grouping "" [] apiOnlyFunctions []).2.2.2.1 "/api/*" (by decide),
   (registry_grouping "" [] apiOnlyFunctions []).2.2.2.2.2 (by decide)⟩

/-- C8: the registry build clears any prior contents first, so building
twice from the same function list equals building once, and the result
does not depend on the prior registry at all (rebuilds replace, never
accumulate). -/
theorem rebuild_idempotent (basePath : String)
    (origins : List (String × Origin)) (functions : List FunctionDef)
    (prior : Registry) :
    (extractBehaviors basePath origins functions
        (extractBehaviors basePath origins functions prior) =
      extractBehaviors basePath origins functions prior) ∧
    (∀ prior2 : Registry,
      extractBehaviors basePath origins functions prior =
        extractBehaviors basePath origins functions prior2) :=
  ⟨rfl, fun _ => rfl⟩

/-- C9: behavior resolution depends only on the pathname of the request
URL: two request URLs with equal pathname (differing only in query
string or fragment) resolve to the same behavior. -/
theorem match_ignores_query (behaviors : Registry) (u1 u2 : String)
    (h1 : ¬ u1 = "") (h2 : ¬ u2 = "")
    (hp : pathnameOf u1 = pathnameOf u2) :
    matchBehavior (some u1) behaviors = matchBehavior (some u2) behaviors := by
  simp only [matchBehavior, if_neg h1, if_neg h2, hp]

/-- C9 witness: a query string and a fragment on the same pathname
resolve identically. -/
theorem match_ignores_query_witness :
    matchBehavior (some "/api/users?page=2")
        [("/api/*", emptyFunctionSet "/api/*" none)] =
      matchBehavior (some "/api/users#top")
        [("/api/*", emptyFunctionSet "/api/*" none)] :=
  match_ignores_query [("/api/*", emptyFunctionSet "/api/*" none)]
    "/api/users?page=2" "/api/users#top" (by decide) (by decide) (by decide)

/-- C10: when a successful lifecycle response is serialized, a header
key is present on the HTTP response exactly when some `{key, value}`
pair for it has a truthy (non-empty, defined) value: falsy-valued
headers are silently omitted, truthy-valued ones are set. -/
theorem headers_truthy_only (behaviors : Registry) (method url : Option String)
    (fs : FunctionSet) (r : ResponseArtifact) (k : String)
    (hm : ¬ upperMethod method = "PURGE")
    (hmatch : matchBehavior url behaviors = some fs) :
    hasHeader (handleRequest behaviors method url (.response r)).headers k =
      r.headers.any (fun kv => kv.1 = k && strTruthy kv.2) := by
  rw [handleRequest, if_neg hm, hmatch]
  show hasHeader (setHeaders r.headers) k = _
  exact setHeaders_hasHeader r.headers k

/-- A sample lifecycle response carrying one truthy header, one
empty-string valued header and one undefined-valued header. -/
def sampleArtifact : ResponseArtifact :=
  { status := "200"
    headers := [("x-a", some "1"), ("x-b", some ""), ("x-c", none)] }

/-- C10 witness: of three headers — truthy, empty-string valued, and
undefined valued — the empty-string one is not set. -/
theorem headers_truthy_only_witness :
    (hasHeader (handleRequest [("*", emptyFunctionSet "*" none)] (some "GET")
        (some "/f") (.response sampleArtifact)).headers "x-b" =
      sampleArtifact.headers.any
        (fun kv => kv.1 = "x-b" && strTruthy kv.2)) ∧
    (hasHeader (handleRequest [("*", emptyFunctionSet "*" none)] (some "GET")
        (some "/f") (.response sampleArtifact)).headers "x-b" = false) :=
  ⟨headers_truthy_only [("*", emptyFunctionSet "*" none)] (some "GET")
      (some "/f") (emptyFunctionSet "*" none) sampleArtifact
      "x-b" (by decide) (by decide),
   by decide⟩

end EdgeLambda
